import Mathlib

/-!
Shallow embedding of the WALS/Greenberg universals pipeline
(`rules_greenberg.py` and `greenberg_pipeline.py`).

A feature-table cell is either a number, a string, or the NaN marker
(lang2vec's "--" is converted to NaN before any rule runs).  A row is a
pandas Series: an association list from column name to cell; a column
absent from the list models a key absent from the Series index.
-/

namespace Wals

/-- A pandas cell: NaN (unobserved), a numeric value, or a string value. -/
inductive Cell where
  | na : Cell
  | val : Int → Cell
  | str : String → Cell
deriving DecidableEq, Repr

/-- A pandas Series / table row: index value plus named cells. -/
structure Row where
  idx : String
  cells : List (String × Cell)
deriving DecidableEq, Repr

/-- `row[c]` as an optional cell; `none` models a key absent from the Series. -/
def rowLookup (r : Row) (c : String) : Option Cell :=
  List.lookup c r.cells

/-- `row.get(c, d) == 1` for the defaults `0` and `np.nan` used in the source:
either default compares unequal to 1, as does NaN and any string, so the
comparison is true exactly when the cell holds the number 1. -/
def eqOne (r : Row) (c : String) : Bool :=
  match rowLookup r c with
  | some (.val v) => v == 1
  | _ => false

/-- `pd.isna(row.get(c))`: true when the column is absent (`row.get` yields
`None`, which `pd.isna` accepts) or holds NaN. -/
def isnaGet (r : Row) (c : String) : Bool :=
  match rowLookup r c with
  | none => true
  | some .na => true
  | some _ => false

/-- The evaluators return `1` (follows), `0` (violates) or `np.nan`
(not testable); `np.nan` is modelled as `none`. -/
def NotTestable : Option Int := none

/-- Source return value `1`: the row follows the rule. -/
def Follows : Option Int := some 1

/-- Source return value `0`: the row violates the rule. -/
def Violates : Option Int := some 0

/-- The repeated "consequent position completely unresolved" test of the
positional rules: neither indicator is attested as 1 and at least one of the
two indicator cells is missing/NaN. -/
def pairUnresolved (r : Row) (b a : String) : Bool :=
  !eqOne r b && !eqOne r a && (isnaGet r b || isnaGet r a)

def RULE19_FEATURES_NEEDED : List String :=
  ["S_ADJECTIVE_AFTER_NOUN",
   "S_DEMONSTRATIVE_WORD_BEFORE_NOUN",
   "S_DEMONSTRATIVE_WORD_AFTER_NOUN",
   "S_NUMERAL_BEFORE_NOUN",
   "S_NUMERAL_AFTER_NOUN"]

/-- Greenberg rule 19: if the adjective follows the noun, demonstrative and
numeral likewise follow.  Mirrors `evaluate_rule19_row`. -/
def evaluate_rule19_row (row : Row) : Option Int :=
  if eqOne row "S_ADJECTIVE_AFTER_NOUN" then
    let dem_before := eqOne row "S_DEMONSTRATIVE_WORD_BEFORE_NOUN"
    let dem_after := eqOne row "S_DEMONSTRATIVE_WORD_AFTER_NOUN"
    let num_before := eqOne row "S_NUMERAL_BEFORE_NOUN"
    let num_after := eqOne row "S_NUMERAL_AFTER_NOUN"
    if pairUnresolved row "S_DEMONSTRATIVE_WORD_BEFORE_NOUN" "S_DEMONSTRATIVE_WORD_AFTER_NOUN"
        || pairUnresolved row "S_NUMERAL_BEFORE_NOUN" "S_NUMERAL_AFTER_NOUN" then
      NotTestable
    else if (dem_before && !dem_after) || (num_before && !num_after) then Violates
    else Follows
  else NotTestable

def RULE20_FEATURES_NEEDED : List String :=
  ["S_ADJECTIVE_BEFORE_NOUN",
   "S_DEMONSTRATIVE_WORD_BEFORE_NOUN",
   "S_NUMERAL_BEFORE_NOUN",
   "S_POSSESSOR_BEFORE_NOUN",
   "S_POSSESSOR_AFTER_NOUN"]

/-- Greenberg rule 20 (the repo's operationalization): if any modifier is
before the noun, the possessor is before the noun.  Mirrors
`evaluate_rule20_row`. -/
def evaluate_rule20_row (row : Row) : Option Int :=
  if eqOne row "S_ADJECTIVE_BEFORE_NOUN"
      || eqOne row "S_DEMONSTRATIVE_WORD_BEFORE_NOUN"
      || eqOne row "S_NUMERAL_BEFORE_NOUN" then
    let gen_before := eqOne row "S_POSSESSOR_BEFORE_NOUN"
    let gen_after := eqOne row "S_POSSESSOR_AFTER_NOUN"
    if pairUnresolved row "S_POSSESSOR_BEFORE_NOUN" "S_POSSESSOR_AFTER_NOUN" then
      NotTestable
    else if gen_after && !gen_before then Violates
    else Follows
  else NotTestable

def RULE21_FEATURES_NEEDED : List String :=
  ["S_ADJECTIVE_AFTER_NOUN",
   "S_DEMONSTRATIVE_WORD_AFTER_NOUN",
   "S_NUMERAL_AFTER_NOUN",
   "S_POSSESSOR_BEFORE_NOUN",
   "S_POSSESSOR_AFTER_NOUN"]

/-- Greenberg rule 21: if any modifier follows the noun, the possessor also
follows.  Mirrors `evaluate_rule21_row`. -/
def evaluate_rule21_row (row : Row) : Option Int :=
  if eqOne row "S_ADJECTIVE_AFTER_NOUN"
      || eqOne row "S_DEMONSTRATIVE_WORD_AFTER_NOUN"
      || eqOne row "S_NUMERAL_AFTER_NOUN" then
    let gen_before := eqOne row "S_POSSESSOR_BEFORE_NOUN"
    let gen_after := eqOne row "S_POSSESSOR_AFTER_NOUN"
    if pairUnresolved row "S_POSSESSOR_BEFORE_NOUN" "S_POSSESSOR_AFTER_NOUN" then
      NotTestable
    else if gen_before && !gen_after then Violates
    else Follows
  else NotTestable

def RULE23_FEATURES_NEEDED : List String :=
  ["S_SVO", "S_VSO", "S_VOS",
   "S_ADJECTIVE_BEFORE_NOUN", "S_ADJECTIVE_AFTER_NOUN"]

/-- Greenberg rule 23: if the verb precedes the object (VO), the adjective
precedes the noun.  Mirrors `evaluate_rule23_row`. -/
def evaluate_rule23_row (row : Row) : Option Int :=
  if eqOne row "S_SVO" || eqOne row "S_VSO" || eqOne row "S_VOS" then
    let adj_before := eqOne row "S_ADJECTIVE_BEFORE_NOUN"
    let adj_after := eqOne row "S_ADJECTIVE_AFTER_NOUN"
    if pairUnresolved row "S_ADJECTIVE_BEFORE_NOUN" "S_ADJECTIVE_AFTER_NOUN" then
      NotTestable
    else if adj_after && !adj_before then Violates
    else Follows
  else NotTestable

def RULE24_FEATURES_NEEDED : List String :=
  ["S_SOV", "S_OSV", "S_OVS",
   "S_ADJECTIVE_BEFORE_NOUN", "S_ADJECTIVE_AFTER_NOUN"]

/-- Greenberg rule 24: if the verb follows the object (OV), the adjective
follows the noun.  Mirrors `evaluate_rule24_row`. -/
def evaluate_rule24_row (row : Row) : Option Int :=
  if eqOne row "S_SOV" || eqOne row "S_OSV" || eqOne row "S_OVS" then
    let adj_before := eqOne row "S_ADJECTIVE_BEFORE_NOUN"
    let adj_after := eqOne row "S_ADJECTIVE_AFTER_NOUN"
    if pairUnresolved row "S_ADJECTIVE_BEFORE_NOUN" "S_ADJECTIVE_AFTER_NOUN" then
      NotTestable
    else if adj_before && !adj_after then Violates
    else Follows
  else NotTestable

/-- The five case-marking indicator columns of rule 41. -/
def RULE41_CASE_FEATURES : List String :=
  ["S_CASE_MARK", "S_CASE_PREFIX", "S_CASE_SUFFIX",
   "S_CASE_PROCLITIC", "S_CASE_ENCLITIC"]

def RULE41_FEATURES_NEEDED : List String :=
  ["S_SOV", "S_OSV"] ++ RULE41_CASE_FEATURES

/-- Greenberg rule 41: a verb-final language (SOV/OSV) has a case system.
Mirrors `evaluate_rule41_row`. -/
def evaluate_rule41_row (row : Row) : Option Int :=
  if eqOne row "S_SOV" || eqOne row "S_OSV" then
    if RULE41_CASE_FEATURES.all (fun c => isnaGet row c) then
      NotTestable
    else if RULE41_CASE_FEATURES.any (fun c => eqOne row c) then Follows
    else Violates
  else NotTestable

/-- The six universals implemented in `rules_greenberg.py`. -/
inductive RuleId where
  | r19 | r20 | r21 | r23 | r24 | r41
deriving DecidableEq, Repr

/-- Dispatch to the corresponding evaluator. -/
def evalOf : RuleId → Row → Option Int
  | .r19 => evaluate_rule19_row
  | .r20 => evaluate_rule20_row
  | .r21 => evaluate_rule21_row
  | .r23 => evaluate_rule23_row
  | .r24 => evaluate_rule24_row
  | .r41 => evaluate_rule41_row

/-- The binary flags whose OR forms each rule's antecedent. -/
def antecedentFeatures : RuleId → List String
  | .r19 => ["S_ADJECTIVE_AFTER_NOUN"]
  | .r20 => ["S_ADJECTIVE_BEFORE_NOUN", "S_DEMONSTRATIVE_WORD_BEFORE_NOUN", "S_NUMERAL_BEFORE_NOUN"]
  | .r21 => ["S_ADJECTIVE_AFTER_NOUN", "S_DEMONSTRATIVE_WORD_AFTER_NOUN", "S_NUMERAL_AFTER_NOUN"]
  | .r23 => ["S_SVO", "S_VSO", "S_VOS"]
  | .r24 => ["S_SOV", "S_OSV", "S_OVS"]
  | .r41 => ["S_SOV", "S_OSV"]

/-- A rule's antecedent: OR over its binary antecedent flags. -/
def antecedentOf (rid : RuleId) (r : Row) : Bool :=
  (antecedentFeatures rid).any (fun c => eqOne r c)

/-- The positional rules' (wrong, right) consequent column pairs; rule 41 is
an existence check and has none. -/
def wrongRightPairs : RuleId → List (String × String)
  | .r19 => [("S_DEMONSTRATIVE_WORD_BEFORE_NOUN", "S_DEMONSTRATIVE_WORD_AFTER_NOUN"),
             ("S_NUMERAL_BEFORE_NOUN", "S_NUMERAL_AFTER_NOUN")]
  | .r20 => [("S_POSSESSOR_AFTER_NOUN", "S_POSSESSOR_BEFORE_NOUN")]
  | .r21 => [("S_POSSESSOR_BEFORE_NOUN", "S_POSSESSOR_AFTER_NOUN")]
  | .r23 => [("S_ADJECTIVE_AFTER_NOUN", "S_ADJECTIVE_BEFORE_NOUN")]
  | .r24 => [("S_ADJECTIVE_BEFORE_NOUN", "S_ADJECTIVE_AFTER_NOUN")]
  | .r41 => []

/-- The five positional (before/after) rules, as opposed to rule 41. -/
def positional (rid : RuleId) : Bool :=
  rid != .r41

/-- The "consequent completely unresolved" condition each evaluator tests
after its antecedent succeeds. -/
def ntCondition (rid : RuleId) (r : Row) : Bool :=
  match rid with
  | .r19 => pairUnresolved r "S_DEMONSTRATIVE_WORD_BEFORE_NOUN" "S_DEMONSTRATIVE_WORD_AFTER_NOUN"
            || pairUnresolved r "S_NUMERAL_BEFORE_NOUN" "S_NUMERAL_AFTER_NOUN"
  | .r20 => pairUnresolved r "S_POSSESSOR_BEFORE_NOUN" "S_POSSESSOR_AFTER_NOUN"
  | .r21 => pairUnresolved r "S_POSSESSOR_BEFORE_NOUN" "S_POSSESSOR_AFTER_NOUN"
  | .r23 => pairUnresolved r "S_ADJECTIVE_BEFORE_NOUN" "S_ADJECTIVE_AFTER_NOUN"
  | .r24 => pairUnresolved r "S_ADJECTIVE_BEFORE_NOUN" "S_ADJECTIVE_AFTER_NOUN"
  | .r41 => RULE41_CASE_FEATURES.all (fun c => isnaGet r c)

/-- A pandas DataFrame: a column list plus rows. -/
structure DF where
  cols : List String
  rows : List Row
deriving DecidableEq, Repr

/-- `str(x)` for a looked-up cell: pandas `astype(str)` turns NaN into the
string "nan" and numbers into their decimal text. -/
def cellAsStr : Option Cell → Cell
  | some (.str s) => .str s
  | some (.val v) => .str (toString v)
  | some .na => .str "nan"
  | none => .str "nan"

/-- The `reset_index` step of the normalizer: when no `lang_code` column
exists, move the index into a leading `lang_code` column and renumber the
index (pandas `RangeIndex`). -/
def withLangCode (df : DF) : DF :=
  if "lang_code" ∈ df.cols then df
  else
    { cols := "lang_code" :: df.cols,
      rows := df.rows.enum.map (fun p =>
        { idx := toString p.1, cells := ("lang_code", Cell.str p.2.idx) :: p.2.cells }) }

/-- The `out["lang_code"] = out["lang_code"].astype(str)` step on one row. -/
def astypeLang (r : Row) : Row :=
  { r with cells := ("lang_code", cellAsStr (rowLookup r "lang_code")) :: r.cells }

/-- The column projection `out = out[keep_cols]` on one row. -/
def projectRow (keep : List String) (r : Row) : Row :=
  { idx := r.idx, cells := keep.map (fun c => (c, (rowLookup r c).getD Cell.na)) }

/-- `normalize_lang2vec_syntax_df`: ensure a string-typed `lang_code`
column (pulled from the index via `reset_index` when absent), then project
to `lang_code` plus the requested feature columns that exist. -/
def normalize_lang2vec_syntax_df (df : DF) (rule_features_needed : List String) : DF :=
  let out := withLangCode df
  let keep := "lang_code" :: rule_features_needed.filter (fun c => decide (c ∈ out.cols))
  { cols := keep, rows := (out.rows.map astypeLang).map (projectRow keep) }

/-- One surviving row of `apply_rule`'s output: the input row plus the
`rule_id`, `follows_rule` and `violates_rule` columns. -/
structure EvalRow where
  row : Row
  rule_id : String
  follows_rule : Int
  violates_rule : Int
deriving DecidableEq, Repr

/-- `apply_rule`: run the evaluator on every row, drop the NaN verdicts and
set `violates_rule = 1 - follows_rule`. -/
def apply_rule (df : DF) (rule_id : String) (rule_fn : Row → Option Int) : List EvalRow :=
  df.rows.filterMap (fun r =>
    match rule_fn r with
    | none => none
    | some v => some { row := r, rule_id := rule_id, follows_rule := v, violates_rule := 1 - v })

/-- One row of the prepared WALS coordinates table (`prepare_wals_coords`
output; rows lacking coordinates were already dropped at load). -/
structure GeoRec where
  lang_code : String
  latitude : ℚ
  longitude : ℚ
  macro_area : String
  family : String
  language_name : String
deriving DecidableEq, Repr

/-- One row of the inner join of evaluated rows with the coordinates. -/
structure GeoJoinedRow where
  ev : EvalRow
  geo : GeoRec
deriving DecidableEq, Repr

/-- A row's `lang_code` cell. -/
def langCell (r : Row) : Cell :=
  (rowLookup r "lang_code").getD Cell.na

/-- `attach_geo`: inner join on `lang_code`, left row order preserved. -/
def attach_geo (df_rule_eval : List EvalRow) (wals_coords : List GeoRec) : List GeoJoinedRow :=
  df_rule_eval.flatMap (fun e =>
    (wals_coords.filter (fun g => langCell e.row == Cell.str g.lang_code)).map
      (fun g => { ev := e, geo := g }))

/-- One row of the macro-area summary. -/
structure MacroRow where
  macro_area : String
  n_languages : Nat
  n_violations : Int
  violation_rate : ℚ
deriving DecidableEq, Repr

/-- pandas `nunique`: number of distinct non-NaN values. -/
def nunique (l : List Cell) : Nat :=
  (l.filter (fun c => c != Cell.na)).toFinset.card

/-- The descending (n_violations, n_languages) order used by
`sort_values(["n_violations", "n_languages"], ascending=False)`. -/
def macroDescLE (x y : MacroRow) : Bool :=
  y.n_violations < x.n_violations
    || (y.n_violations == x.n_violations && y.n_languages ≤ x.n_languages)

/-- The aggregated row `macro_area_summary` produces for one macro-area
group: distinct language count, violation sum, and mean violation rate. -/
def macroRowOf (df_geo : List GeoJoinedRow) (a : String) : MacroRow :=
  let grp := df_geo.filter (fun r => r.geo.macro_area == a)
  { macro_area := a,
    n_languages := nunique (grp.map (fun r => langCell r.ev.row)),
    n_violations := (grp.map (fun r => r.ev.violates_rule)).sum,
    violation_rate :=
      ((grp.map (fun r => (r.ev.violates_rule : ℚ))).sum) / (grp.length : ℚ) }

/-- `macro_area_summary`: group by macro-area; aggregate each group; sort
descending by violation count then language count. -/
def macro_area_summary (df_geo : List GeoJoinedRow) : List MacroRow :=
  (((df_geo.map (fun r => r.geo.macro_area)).dedup).map (macroRowOf df_geo)).mergeSort
    macroDescLE

/-- The coverage report row (`pd.Series` in the source); the two fractions
are NaN (here `none`) when their denominator is zero. -/
structure CoverageReport where
  total_languages_in_lang2vec_syntax_df : Nat
  languages_testable_for_rule : Nat
  testable_fraction : Option ℚ
  languages_with_geo_metadata_after_join : Nat
  geo_join_fraction_of_testable : Option ℚ
deriving DecidableEq, Repr

/-- `coverage_report`: distinct-language counts of the three pipeline stages
and the two derived fractions. -/
def coverage_report (df_syn : DF) (df_eval : List EvalRow) (df_geo : List GeoJoinedRow) :
    CoverageReport :=
  let total_langs := nunique (df_syn.rows.map langCell)
  let testable_langs := nunique (df_eval.map (fun e => langCell e.row))
  let mappable_langs := nunique (df_geo.map (fun j => langCell j.ev.row))
  { total_languages_in_lang2vec_syntax_df := total_langs,
    languages_testable_for_rule := testable_langs,
    testable_fraction :=
      if total_langs = 0 then none else some ((testable_langs : ℚ) / (total_langs : ℚ)),
    languages_with_geo_metadata_after_join := mappable_langs,
    geo_join_fraction_of_testable :=
      if testable_langs = 0 then none else some ((mappable_langs : ℚ) / (testable_langs : ℚ)) }

/-- The five tables `run_rule_from_lang2vec` returns. -/
structure RunOutput where
  norm_table : DF
  rule_eval : List EvalRow
  rule_geo : List GeoJoinedRow
  macro_summary : List MacroRow
  coverage : CoverageReport
deriving DecidableEq, Repr

/-- `run_rule_from_lang2vec`: normalize, fail fast on missing required
columns (the `ValueError` names exactly the missing ones, carried here as
the error payload), evaluate, join geography, aggregate and report.  The
prepared coordinates table stands in for the CSV path argument. -/
def run_rule_from_lang2vec (all_features : DF) (wals_coords : List GeoRec)
    (rule_id : String) (rule_features_needed : List String) (rule_fn : Row → Option Int) :
    Except (List String) RunOutput :=
  let df_syn := normalize_lang2vec_syntax_df all_features rule_features_needed
  let missing := rule_features_needed.filter (fun c => decide (c ∉ df_syn.cols))
  if missing.isEmpty then
    let df_eval := apply_rule df_syn ("Greenber_" ++ rule_id) rule_fn
    let df_geo := attach_geo df_eval wals_coords
    .ok { norm_table := df_syn,
          rule_eval := df_eval,
          rule_geo := df_geo,
          macro_summary := macro_area_summary df_geo,
          coverage := coverage_report df_syn df_eval df_geo }
  else
    .error missing

/-- The violation condition each evaluator tests once the consequent is
resolved: some (wrong, right) pair with wrong attested and right not also
attested; for rule 41, no case indicator attested. -/
def violCondition (rid : RuleId) (r : Row) : Bool :=
  match rid with
  | .r41 => !(RULE41_CASE_FEATURES.any (fun c => eqOne r c))
  | rid => (wrongRightPairs rid).any (fun p => eqOne r p.1 && !eqOne r p.2)

theorem evalOf_antecedent_false {rid : RuleId} {row : Row}
    (h : antecedentOf rid row = false) : evalOf rid row = NotTestable := by
  cases rid <;>
    simp only [antecedentOf, antecedentFeatures, List.any_cons, List.any_nil,
      Bool.or_false, Bool.or_eq_false_iff] at h
  case r19 => simp [evalOf, evaluate_rule19_row, h]
  case r20 => simp [evalOf, evaluate_rule20_row, h.1, h.2.1, h.2.2]
  case r21 => simp [evalOf, evaluate_rule21_row, h.1, h.2.1, h.2.2]
  case r23 => simp [evalOf, evaluate_rule23_row, h.1, h.2.1, h.2.2]
  case r24 => simp [evalOf, evaluate_rule24_row, h.1, h.2.1, h.2.2]
  case r41 => simp [evalOf, evaluate_rule41_row, h.1, h.2]

theorem if_not_flip {α : Type} (b : Bool) (x y : α) :
    (if (!b) = true then x else y) = if b = true then y else x := by
  cases b <;> simp

theorem evalOf_antecedent_true {rid : RuleId} {row : Row}
    (h : antecedentOf rid row = true) :
    evalOf rid row =
      if ntCondition rid row then NotTestable
      else if violCondition rid row then Violates else Follows := by
  cases rid <;>
    simp only [antecedentOf, antecedentFeatures, List.any_cons, List.any_nil,
      Bool.or_false] at h
  case r19 =>
    simp [evalOf, evaluate_rule19_row, ntCondition, violCondition, wrongRightPairs, h]
  case r20 =>
    rw [← Bool.or_assoc] at h
    simp [evalOf, evaluate_rule20_row, ntCondition, violCondition, wrongRightPairs, h]
  case r21 =>
    rw [← Bool.or_assoc] at h
    simp [evalOf, evaluate_rule21_row, ntCondition, violCondition, wrongRightPairs, h]
  case r23 =>
    rw [← Bool.or_assoc] at h
    simp [evalOf, evaluate_rule23_row, ntCondition, violCondition, wrongRightPairs, h]
  case r24 =>
    rw [← Bool.or_assoc] at h
    simp [evalOf, evaluate_rule24_row, ntCondition, violCondition, wrongRightPairs, h]
  case r41 =>
    simp only [evalOf, evaluate_rule41_row, ntCondition, violCondition]
    rw [if_pos h, if_not_flip]

/-- C3: For each of the six rule evaluators, a row on which no antecedent
feature flag equals 1 (absent or unobserved flags counting as false) gets
verdict `NotTestable`, whatever the consequent features hold. -/
theorem antecedent_false_not_testable (rid : RuleId) (row : Row)
    (h : ∀ c ∈ antecedentFeatures rid, eqOne row c = false) :
    evalOf rid row = NotTestable := by
  apply evalOf_antecedent_false
  unfold antecedentOf
  rw [List.any_eq_false]
  intro c hc
  simp [h c hc]

/-- C3 witness: rule 24 on a row whose OV flags are all 0 is not testable
even though the adjective is attested before the noun. -/
theorem antecedent_false_not_testable_witness :
    evalOf .r24 { idx := "x", cells := [("S_SOV", .val 0), ("S_OSV", .val 0),
      ("S_OVS", .val 0), ("S_ADJECTIVE_BEFORE_NOUN", .val 1)] } = NotTestable :=
  antecedent_false_not_testable .r24 _ (by decide)

/-- A row with OV order and the adjective observed *not before* the noun
(`S_ADJECTIVE_BEFORE_NOUN = 0`) but the after-indicator absent. -/
def obsRow : Row :=
  { idx := "x", cells := [("S_SOV", .val 1), ("S_ADJECTIVE_BEFORE_NOUN", .val 0)] }

/-- C1 counterexample: rule 24 on `obsRow` has a true antecedent and an
*observed* consequent indicator (`S_ADJECTIVE_BEFORE_NOUN` is 0, not NaN),
yet the verdict is `NotTestable` — the claim says an observed indicator
forces `Follows` or `Violates`. -/
theorem rule24_not_testable_despite_observed_indicator :
    antecedentOf .r24 obsRow = true
    ∧ isnaGet obsRow "S_ADJECTIVE_BEFORE_NOUN" = false
    ∧ evaluate_rule24_row obsRow = NotTestable := by decide

/-- C1 amended: when a rule's antecedent is true, the verdict is
`NotTestable` exactly when the evaluator's consequent-unresolved condition
holds: for a positional rule, some (before, after) indicator pair has
neither value attested as 1 and at least one of the two missing; for rule
41, all five case indicators missing. -/
theorem not_testable_iff_consequent_unresolved (rid : RuleId) (row : Row)
    (h : antecedentOf rid row = true) :
    evalOf rid row = NotTestable ↔ ntCondition rid row = true := by
  rw [evalOf_antecedent_true h]
  cases hnt : ntCondition rid row
  · cases hv : violCondition rid row <;> simp [Violates, Follows, NotTestable]
  · simp

/-- C1 witness: the amended equivalence instantiated at `obsRow` for
rule 24. -/
theorem not_testable_iff_consequent_unresolved_witness :
    evalOf .r24 obsRow = NotTestable ↔ ntCondition .r24 obsRow = true :=
  not_testable_iff_consequent_unresolved .r24 obsRow (by decide)

/-- C4: a positional rule with a true antecedent and a testable row returns
`Violates` exactly when some (wrong, right) pair has the wrong order
attested and the right order not also attested, `Follows` otherwise; a row
attesting the right order alongside every attested wrong order is never
flagged. -/
theorem positional_violation_iff_wrong_only (rid : RuleId) (row : Row)
    (hp : positional rid = true)
    (ha : antecedentOf rid row = true)
    (hnt : evalOf rid row ≠ NotTestable) :
    (evalOf rid row = Violates
      ↔ ((wrongRightPairs rid).any (fun p => eqOne row p.1 && !eqOne row p.2)) = true)
    ∧ (evalOf rid row = Follows
      ↔ ((wrongRightPairs rid).any (fun p => eqOne row p.1 && !eqOne row p.2)) = false)
    ∧ ((∀ p ∈ wrongRightPairs rid, eqOne row p.1 = true → eqOne row p.2 = true)
      → evalOf rid row ≠ Violates) := by
  rw [evalOf_antecedent_true ha] at hnt ⊢
  have hcf : ntCondition rid row = false := by
    cases hc : ntCondition rid row
    · rfl
    · exact absurd (by rw [hc]; rfl) hnt
  rw [hcf]
  have hviol : violCondition rid row
      = (wrongRightPairs rid).any (fun p => eqOne row p.1 && !eqOne row p.2) := by
    cases rid <;> first
      | rfl
      | (exfalso; simp [positional] at hp)
  rw [if_neg (by simp), hviol]
  refine ⟨?_, ?_, ?_⟩
  · cases hv : (wrongRightPairs rid).any (fun p => eqOne row p.1 && !eqOne row p.2) <;>
      simp [Violates, Follows]
  · cases hv : (wrongRightPairs rid).any (fun p => eqOne row p.1 && !eqOne row p.2) <;>
      simp [Violates, Follows]
  · intro hall
    have hv : (wrongRightPairs rid).any (fun p => eqOne row p.1 && !eqOne row p.2) = false := by
      rw [List.any_eq_false]
      intro p hp'
      cases hw : eqOne row p.1
      · simp [hw]
      · simp [hw, hall p hp' hw]
    rw [hv]
    simp [Violates, Follows]

/-- A mixed-order OV row: the adjective is attested both before and after
the noun. -/
def mixedRow : Row :=
  { idx := "x", cells := [("S_SOV", .val 1), ("S_ADJECTIVE_BEFORE_NOUN", .val 1),
    ("S_ADJECTIVE_AFTER_NOUN", .val 1)] }

/-- C4 witness: rule 24 on the mixed-order row — the violation and
compliance characterizations instantiated; the mixed-order row satisfies
neither wrong-only pair, so it is not flagged. -/
theorem positional_violation_iff_wrong_only_witness :
    (evalOf .r24 mixedRow = Violates
      ↔ ((wrongRightPairs .r24).any (fun p => eqOne mixedRow p.1 && !eqOne mixedRow p.2)) = true)
    ∧ (evalOf .r24 mixedRow = Follows
      ↔ ((wrongRightPairs .r24).any (fun p => eqOne mixedRow p.1 && !eqOne mixedRow p.2)) = false) :=
  ⟨(positional_violation_iff_wrong_only .r24 mixedRow (by decide) (by decide) (by decide)).1,
   (positional_violation_iff_wrong_only .r24 mixedRow (by decide) (by decide) (by decide)).2.1⟩

/-- `r` with column `c` present and holding the NaN marker. -/
def insertNa (r : Row) (c : String) : Row :=
  { r with cells := (c, Cell.na) :: r.cells }

theorem eqOne_insertNa {r : Row} {c : String} (h : rowLookup r c = none) (c' : String) :
    eqOne (insertNa r c) c' = eqOne r c' := by
  unfold eqOne insertNa rowLookup at *
  rw [List.lookup_cons]
  cases hq : c' == c
  · rfl
  · have hc : c' = c := by
      simpa using hq
    subst hc
    rw [h]

theorem isnaGet_insertNa {r : Row} {c : String} (h : rowLookup r c = none) (c' : String) :
    isnaGet (insertNa r c) c' = isnaGet r c' := by
  unfold isnaGet insertNa rowLookup at *
  rw [List.lookup_cons]
  cases hq : c' == c
  · rfl
  · have hc : c' = c := by
      simpa using hq
    subst hc
    rw [h]

/-- C9: each evaluator treats an absent column exactly like one present with
the unobserved (NaN) marker; being Lean functions over total lookups, the
evaluators cannot raise on any subset of present columns. -/
theorem absent_column_same_as_unobserved (rid : RuleId) (r : Row) (c : String)
    (h : rowLookup r c = none) :
    evalOf rid (insertNa r c) = evalOf rid r := by
  cases rid <;>
    simp only [evalOf, evaluate_rule19_row, evaluate_rule20_row, evaluate_rule21_row,
      evaluate_rule23_row, evaluate_rule24_row, evaluate_rule41_row, pairUnresolved,
      eqOne_insertNa h, isnaGet_insertNa h]

/-- C9 witness: rule 41 on an SOV row missing `S_CASE_MARK` equals the same
row with `S_CASE_MARK` explicitly NaN. -/
theorem absent_column_same_as_unobserved_witness :
    evalOf .r41 (insertNa { idx := "x", cells := [("S_SOV", .val 1)] } "S_CASE_MARK")
      = evalOf .r41 { idx := "x", cells := [("S_SOV", .val 1)] } :=
  absent_column_same_as_unobserved .r41 _ "S_CASE_MARK" (by decide)

theorem evalOf_range (rid : RuleId) (row : Row) :
    evalOf rid row = NotTestable ∨ evalOf rid row = Violates ∨ evalOf rid row = Follows := by
  cases rid <;>
    simp only [evalOf, evaluate_rule19_row, evaluate_rule20_row, evaluate_rule21_row,
      evaluate_rule23_row, evaluate_rule24_row, evaluate_rule41_row] <;>
    (repeat' split) <;> simp [NotTestable, Violates, Follows]

theorem mem_apply_rule {df : DF} {p : String} {fn : Row → Option Int} {e : EvalRow}
    (he : e ∈ apply_rule df p fn) :
    ∃ r ∈ df.rows, ∃ v, fn r = some v
      ∧ e = { row := r, rule_id := p, follows_rule := v, violates_rule := 1 - v } := by
  rw [apply_rule, List.mem_filterMap] at he
  obtain ⟨r, hr, hfr⟩ := he
  rcases hv : fn r with _ | v <;> rw [hv] at hfr
  · exact absurd hfr (by simp)
  · exact ⟨r, hr, v, hv, by simpa using hfr.symm⟩

theorem mem_attach_geo {evs : List EvalRow} {coords : List GeoRec} {j : GeoJoinedRow}
    (hj : j ∈ attach_geo evs coords) : j.ev ∈ evs := by
  rw [attach_geo, List.mem_flatMap] at hj
  obtain ⟨e, he, hj2⟩ := hj
  rw [List.mem_map] at hj2
  obtain ⟨g, _, rfl⟩ := hj2
  exact he

/-- C6: every row surviving `apply_rule` under one of the six evaluators has
a 0/1 `follows_rule` and satisfies `violates_rule + follows_rule = 1`. -/
theorem apply_rule_follows_violates (rid : RuleId) (df : DF) (p : String) :
    ∀ e ∈ apply_rule df p (evalOf rid),
      (e.follows_rule = 0 ∨ e.follows_rule = 1)
      ∧ e.violates_rule + e.follows_rule = 1 := by
  intro e he
  obtain ⟨r, _, v, hv, rfl⟩ := mem_apply_rule he
  have hrange := evalOf_range rid r
  rw [hv] at hrange
  have hv01 : v = 0 ∨ v = 1 := by
    rcases hrange with h | h | h
    · exact absurd h (by simp [NotTestable])
    · exact Or.inl (by simpa [Violates] using h)
    · exact Or.inr (by simpa [Follows] using h)
  refine ⟨hv01, ?_⟩
  show (1 - v) + v = 1
  omega

/-- A one-language table carrying the five rule-24 columns; the language is
OV with the adjective attested strictly before the noun. -/
def runDF : DF :=
  { cols := ["S_SOV", "S_OSV", "S_OVS", "S_ADJECTIVE_BEFORE_NOUN", "S_ADJECTIVE_AFTER_NOUN"],
    rows := [{ idx := "aaa",
               cells := [("S_SOV", .val 1), ("S_ADJECTIVE_BEFORE_NOUN", .val 1),
                         ("S_ADJECTIVE_AFTER_NOUN", .val 0)] }] }

/-- A coordinates table with one entry matching `runDF`'s language. -/
def runCoords : List GeoRec :=
  [{ lang_code := "aaa", latitude := 0, longitude := 0, macro_area := "Eurasia",
     family := "fam", language_name := "A" }]

/-- The evaluated row `apply_rule` produces from `runDF` under rule 24. -/
def runEvalRow : EvalRow :=
  { row := { idx := "0",
             cells := [("lang_code", Cell.str "aaa"), ("S_SOV", Cell.val 1),
                       ("S_OSV", Cell.na), ("S_OVS", Cell.na),
                       ("S_ADJECTIVE_BEFORE_NOUN", Cell.val 1),
                       ("S_ADJECTIVE_AFTER_NOUN", Cell.val 0)] },
    rule_id := "Greenber_24", follows_rule := 0, violates_rule := 1 }

/-- C6 witness: the invariant at the single surviving rule-24 row of
`runDF`. -/
theorem apply_rule_follows_violates_witness :
    (runEvalRow.follows_rule = 0 ∨ runEvalRow.follows_rule = 1)
    ∧ runEvalRow.violates_rule + runEvalRow.follows_rule = 1 :=
  apply_rule_follows_violates .r24 (normalize_lang2vec_syntax_df runDF RULE24_FEATURES_NEEDED)
    "Greenber_24" runEvalRow (by decide)

/-- C10: a successful pipeline run stamps every evaluated and geo-joined row
with `rule_id = "Greenber_" ++ ruleId` (the misspelled prefixed string,
not the bare ruleId). -/
theorem run_rule_id_prefixed (df : DF) (coords : List GeoRec) (rid : String)
    (needed : List String) (fn : Row → Option Int) (out : RunOutput)
    (h : run_rule_from_lang2vec df coords rid needed fn = .ok out) :
    (∀ e ∈ out.rule_eval, e.rule_id = "Greenber_" ++ rid)
    ∧ (∀ j ∈ out.rule_geo, j.ev.rule_id = "Greenber_" ++ rid) := by
  rw [run_rule_from_lang2vec] at h
  split at h
  · cases h
    constructor
    · intro e he
      obtain ⟨r, _, v, _, rfl⟩ := mem_apply_rule he
      rfl
    · intro j hj
      obtain ⟨r, _, v, _, hev⟩ := mem_apply_rule (mem_attach_geo hj)
      rw [hev]
  · exact absurd h (by simp)

/-- C5: the pipeline runner fails fast with an error naming every missing
required column when some required feature is absent from the normalized
table, and produces its `.ok` output (the five tables) only when no
required column is missing. -/
theorem missing_required_columns_error (df : DF) (coords : List GeoRec) (rid : String)
    (needed : List String) (fn : Row → Option Int) :
    ((∃ c ∈ needed, c ∉ (normalize_lang2vec_syntax_df df needed).cols) →
      run_rule_from_lang2vec df coords rid needed fn
        = .error (needed.filter
            (fun c => decide (c ∉ (normalize_lang2vec_syntax_df df needed).cols)))
      ∧ ∀ c ∈ needed, c ∉ (normalize_lang2vec_syntax_df df needed).cols →
          c ∈ needed.filter
            (fun c => decide (c ∉ (normalize_lang2vec_syntax_df df needed).cols)))
    ∧ ((∀ c ∈ needed, c ∈ (normalize_lang2vec_syntax_df df needed).cols) →
      run_rule_from_lang2vec df coords rid needed fn
        = .ok { norm_table := normalize_lang2vec_syntax_df df needed,
                rule_eval := apply_rule (normalize_lang2vec_syntax_df df needed)
                  ("Greenber_" ++ rid) fn,
                rule_geo := attach_geo
                  (apply_rule (normalize_lang2vec_syntax_df df needed) ("Greenber_" ++ rid) fn)
                  coords,
                macro_summary := macro_area_summary (attach_geo
                  (apply_rule (normalize_lang2vec_syntax_df df needed) ("Greenber_" ++ rid) fn)
                  coords),
                coverage := coverage_report (normalize_lang2vec_syntax_df df needed)
                  (apply_rule (normalize_lang2vec_syntax_df df needed) ("Greenber_" ++ rid) fn)
                  (attach_geo
                    (apply_rule (normalize_lang2vec_syntax_df df needed) ("Greenber_" ++ rid) fn)
                    coords) }) := by
  constructor
  · rintro ⟨c, hc, hcn⟩
    have hmem : c ∈ needed.filter
        (fun c => decide (c ∉ (normalize_lang2vec_syntax_df df needed).cols)) :=
      List.mem_filter.mpr ⟨hc, by simpa using hcn⟩
    have hemp : (needed.filter
        (fun c => decide (c ∉ (normalize_lang2vec_syntax_df df needed).cols))).isEmpty
          = false := by
      rcases hh : needed.filter
          (fun c => decide (c ∉ (normalize_lang2vec_syntax_df df needed).cols)) with _ | ⟨a, t⟩
      · rw [hh] at hmem
        exact absurd hmem (List.not_mem_nil c)
      · rfl
    refine ⟨?_, ?_⟩
    · simp only [run_rule_from_lang2vec]
      rw [hemp]
      rfl
    · intro c' hc' hcn'
      exact List.mem_filter.mpr ⟨hc', by simpa using hcn'⟩
  · intro hall
    have hmiss : needed.filter
        (fun c => decide (c ∉ (normalize_lang2vec_syntax_df df needed).cols)) = [] := by
      rw [List.filter_eq_nil_iff]
      intro c hc
      simp [hall c hc]
    simp only [run_rule_from_lang2vec]
    rw [hmiss]
    rfl

/-- A table whose columns lack `S_NOPE`. -/
def misDF : DF := { cols := ["S_SOV"], rows := [] }

/-- C5 witness: requesting the absent column `S_NOPE` makes the runner
return the error carrying exactly the missing-column list. -/
theorem missing_required_columns_error_witness :
    run_rule_from_lang2vec misDF [] "24" ["S_SOV", "S_NOPE"] evaluate_rule24_row
      = .error (["S_SOV", "S_NOPE"].filter
          (fun c => decide (c ∉ (normalize_lang2vec_syntax_df misDF ["S_SOV", "S_NOPE"]).cols))) :=
  ((missing_required_columns_error misDF [] "24" ["S_SOV", "S_NOPE"] evaluate_rule24_row).1
    (by decide)).1

/-- `nunique` is monotone under list inclusion. -/
theorem nunique_subset {l1 l2 : List Cell} (h : l1 ⊆ l2) : nunique l1 ≤ nunique l2 := by
  unfold nunique
  apply Finset.card_le_card
  intro x hx
  simp only [List.mem_toFinset, List.mem_filter] at hx ⊢
  exact ⟨h hx.1, hx.2⟩

theorem langs_subset_eval_syntax {df : DF} {p : String} {fn : Row → Option Int} :
    (apply_rule df p fn).map (fun e => langCell e.row) ⊆ df.rows.map langCell := by
  intro x hx
  rw [List.mem_map] at hx ⊢
  obtain ⟨e, he, rfl⟩ := hx
  obtain ⟨r, hr, v, _, rfl⟩ := mem_apply_rule he
  exact ⟨r, hr, rfl⟩

theorem langs_subset_geo_eval {evs : List EvalRow} {coords : List GeoRec} :
    (attach_geo evs coords).map (fun j => langCell j.ev.row)
      ⊆ evs.map (fun e => langCell e.row) := by
  intro x hx
  rw [List.mem_map] at hx ⊢
  obtain ⟨j, hj, rfl⟩ := hx
  exact ⟨j.ev, mem_attach_geo hj, rfl⟩

/-- C7: on every successful run, the coverage report's distinct-language
counts satisfy `mappable_langs ≤ testable_langs ≤ total_langs`. -/
theorem coverage_monotone (df : DF) (coords : List GeoRec) (rid : String)
    (needed : List String) (fn : Row → Option Int) (out : RunOutput)
    (h : run_rule_from_lang2vec df coords rid needed fn = .ok out) :
    out.coverage.languages_with_geo_metadata_after_join
        ≤ out.coverage.languages_testable_for_rule
    ∧ out.coverage.languages_testable_for_rule
        ≤ out.coverage.total_languages_in_lang2vec_syntax_df := by
  rw [run_rule_from_lang2vec] at h
  split at h
  · cases h
    exact ⟨nunique_subset langs_subset_geo_eval, nunique_subset langs_subset_eval_syntax⟩
  · exact absurd h (by simp)

/-- The normalized table of the one-language example run. -/
def runSyn : DF := normalize_lang2vec_syntax_df runDF RULE24_FEATURES_NEEDED

/-- The evaluated table of the example run. -/
def runEval : List EvalRow := apply_rule runSyn ("Greenber_" ++ "24") evaluate_rule24_row

/-- The geo-joined table of the example run. -/
def runGeo : List GeoJoinedRow := attach_geo runEval runCoords

/-- The full output of the example run. -/
def runOut : RunOutput :=
  { norm_table := runSyn, rule_eval := runEval, rule_geo := runGeo,
    macro_summary := macro_area_summary runGeo,
    coverage := coverage_report runSyn runEval runGeo }

/-- C7 witness: the coverage inequalities on the concrete example run. -/
theorem coverage_monotone_witness :
    runOut.coverage.languages_with_geo_metadata_after_join
        ≤ runOut.coverage.languages_testable_for_rule
    ∧ runOut.coverage.languages_testable_for_rule
        ≤ runOut.coverage.total_languages_in_lang2vec_syntax_df :=
  coverage_monotone runDF runCoords "24" RULE24_FEATURES_NEEDED evaluate_rule24_row runOut rfl

/-- The geo-joined row of the concrete example run. -/
def runGeoRow : GeoJoinedRow :=
  { ev := runEvalRow,
    geo := { lang_code := "aaa", latitude := 0, longitude := 0, macro_area := "Eurasia",
             family := "fam", language_name := "A" } }

/-- C10 witness: the rows of both output tables of the concrete example run
carry the Greenber_-prefixed rule identifier. -/
theorem run_rule_id_prefixed_witness :
    runEvalRow.rule_id = "Greenber_" ++ "24"
    ∧ runGeoRow.ev.rule_id = "Greenber_" ++ "24" :=
  ⟨(run_rule_id_prefixed runDF runCoords "24" RULE24_FEATURES_NEEDED evaluate_rule24_row
      runOut rfl).1 runEvalRow (by decide),
   (run_rule_id_prefixed runDF runCoords "24" RULE24_FEATURES_NEEDED evaluate_rule24_row
      runOut rfl).2 runGeoRow (by decide)⟩

theorem violates_sum_cast : ∀ l : List GeoJoinedRow,
    (l.map (fun r => (r.ev.violates_rule : ℚ))).sum
      = (((l.map (fun r => r.ev.violates_rule)).sum : Int) : ℚ)
  | [] => by simp
  | x :: t => by
      rw [List.map_cons, List.sum_cons, violates_sum_cast t,
        List.map_cons, List.sum_cons, Int.cast_add]

/-- An evaluated violating row for language `aaa`. -/
def dupEval : EvalRow :=
  { row := { idx := "0", cells := [("lang_code", Cell.str "aaa")] },
    rule_id := "Greenber_20", follows_rule := 0, violates_rule := 1 }

/-- A coordinates table listing language `aaa` twice (two reference entries
sharing one ISO code), both in macro-area `X`. -/
def dupCoords : List GeoRec :=
  [{ lang_code := "aaa", latitude := 0, longitude := 0, macro_area := "X",
     family := "fam", language_name := "A1" },
   { lang_code := "aaa", latitude := 1, longitude := 1, macro_area := "X",
     family := "fam", language_name := "A2" }]

/-- C2 counterexample: the geo join duplicates the one evaluated row of
`dupEval` across the two reference entries, so macro-area `X` sums
`n_violations = 2` against `n_languages = 1` distinct language — refuting
`n_violations ≤ n_languages` for summaries of geo-joined tables. -/
theorem macro_summary_violations_exceed_languages :
    macroRowOf (attach_geo [dupEval] dupCoords) "X"
        ∈ macro_area_summary (attach_geo [dupEval] dupCoords)
    ∧ ((macroRowOf (attach_geo [dupEval] dupCoords) "X").n_languages : Int)
        < (macroRowOf (attach_geo [dupEval] dupCoords) "X").n_violations := by
  constructor
  · exact (List.mem_mergeSort).mpr (List.mem_map.mpr ⟨"X", by decide, rfl⟩)
  · decide

/-- C2 amended: for a geo-joined table whose rows carry 0/1 `violates_rule`
and pairwise-distinct, observed `lang_code` values (as when each evaluated
language matches at most one reference entry), every macro-area summary row
satisfies `n_violations ≤ n_languages`, and `violation_rate` equals
`n_violations / n_languages` (exactly, over ℚ) whenever `n_languages > 0`. -/
theorem macro_summary_violations_bounded (g : List GeoJoinedRow)
    (h01 : ∀ r ∈ g, r.ev.violates_rule = 0 ∨ r.ev.violates_rule = 1)
    (hnd : (g.map (fun r => langCell r.ev.row)).Nodup)
    (hna : ∀ r ∈ g, langCell r.ev.row ≠ Cell.na) :
    ∀ m ∈ macro_area_summary g,
      m.n_violations ≤ (m.n_languages : Int)
      ∧ (0 < m.n_languages →
          m.violation_rate = (m.n_violations : ℚ) / (m.n_languages : ℚ)) := by
  intro m hm
  rw [macro_area_summary, List.mem_mergeSort, List.mem_map] at hm
  obtain ⟨a, ha, rfl⟩ := hm
  have hsub : ∀ r ∈ g.filter (fun r => r.geo.macro_area == a), r ∈ g :=
    fun r hr => (List.filter_sublist g).subset hr
  have hndg : ((g.filter (fun r => r.geo.macro_area == a)).map
      (fun r => langCell r.ev.row)).Nodup :=
    List.Nodup.sublist ((List.filter_sublist g).map _) hnd
  have hfil : ((g.filter (fun r => r.geo.macro_area == a)).map
        (fun r => langCell r.ev.row)).filter (fun c => c != Cell.na)
      = (g.filter (fun r => r.geo.macro_area == a)).map (fun r => langCell r.ev.row) := by
    rw [List.filter_eq_self]
    intro c hc
    rw [List.mem_map] at hc
    obtain ⟨r, hr, rfl⟩ := hc
    simpa using hna r (hsub r hr)
  have hlang : nunique ((g.filter (fun r => r.geo.macro_area == a)).map
        (fun r => langCell r.ev.row))
      = (g.filter (fun r => r.geo.macro_area == a)).length := by
    rw [nunique, hfil, List.toFinset_card_of_nodup hndg, List.length_map]
  simp only [macroRowOf]
  constructor
  · rw [hlang]
    have hle := List.sum_le_card_nsmul
      ((g.filter (fun r => r.geo.macro_area == a)).map (fun r => r.ev.violates_rule)) 1
      (by
        intro x hx
        rw [List.mem_map] at hx
        obtain ⟨r, hr, rfl⟩ := hx
        rcases h01 r (hsub r hr) with h | h <;> omega)
    simpa [List.length_map] using hle
  · intro _
    rw [hlang, violates_sum_cast]

/-- C2 witness: the amended aggregation bound instantiated at the
`Eurasia` summary row of the concrete example run's geo-joined table. -/
theorem macro_summary_violations_bounded_witness :
    (macroRowOf runGeo "Eurasia").n_violations
        ≤ ((macroRowOf runGeo "Eurasia").n_languages : Int)
    ∧ (macroRowOf runGeo "Eurasia").violation_rate
        = ((macroRowOf runGeo "Eurasia").n_violations : ℚ)
          / ((macroRowOf runGeo "Eurasia").n_languages : ℚ) :=
  have h := macro_summary_violations_bounded runGeo (by decide) (by decide) (by decide)
    (macroRowOf runGeo "Eurasia")
    ((List.mem_mergeSort).mpr (List.mem_map.mpr ⟨"Eurasia", by decide, rfl⟩))
  ⟨h.1, h.2 (by decide)⟩

theorem lookup_map_pair (g : String → Cell) (l : List String) (c : String) :
    List.lookup c (l.map (fun x => (x, g x))) = if c ∈ l then some (g c) else none := by
  induction l with
  | nil => simp
  | cons a t ih =>
      rw [List.map_cons, List.lookup_cons]
      by_cases hca : c = a
      · subst hca
        simp
      · have hq : (c == a) = false := by simpa using hca
        rw [hq]
        simp only [List.mem_cons, hca, false_or]
        exact ih

theorem cellAsStr_cellAsStr (o : Option Cell) :
    cellAsStr (some (cellAsStr o)) = cellAsStr o := by
  rcases o with _ | c
  · rfl
  · cases c <;> rfl

theorem rowLookup_astypeLang_lang (r : Row) :
    rowLookup (astypeLang r) "lang_code" = some (cellAsStr (rowLookup r "lang_code")) := by
  rw [astypeLang, rowLookup, List.lookup_cons]
  simp

theorem rowLookup_astypeLang_ne {c : String} (h : c ≠ "lang_code") (r : Row) :
    rowLookup (astypeLang r) c = rowLookup r c := by
  rw [astypeLang, rowLookup, List.lookup_cons]
  have hq : (c == "lang_code") = false := by simpa using h
  rw [hq]
  rfl

theorem rowLookup_projectRow (keep : List String) (r : Row) (c : String) :
    rowLookup (projectRow keep r) c
      = if c ∈ keep then some ((rowLookup r c).getD Cell.na) else none :=
  lookup_map_pair _ keep c

theorem projectRow_congr {keep : List String} {r1 r2 : Row} (hidx : r1.idx = r2.idx)
    (h : ∀ c ∈ keep, (rowLookup r1 c).getD Cell.na = (rowLookup r2 c).getD Cell.na) :
    projectRow keep r1 = projectRow keep r2 := by
  unfold projectRow
  rw [hidx]
  congr 1
  apply List.map_congr_left
  intro c hc
  rw [h c hc]

theorem project_ast_project (keep : List String) (hk : "lang_code" ∈ keep) (r : Row) :
    projectRow keep (astypeLang (projectRow keep (astypeLang r)))
      = projectRow keep (astypeLang r) := by
  refine projectRow_congr rfl ?_
  intro c hc
  by_cases hcl : c = "lang_code"
  · subst hcl
    rw [rowLookup_astypeLang_lang, rowLookup_astypeLang_lang, Option.getD_some,
      Option.getD_some, rowLookup_projectRow, if_pos hk, rowLookup_astypeLang_lang,
      Option.getD_some, cellAsStr_cellAsStr]
  · rw [rowLookup_astypeLang_ne hcl, rowLookup_astypeLang_ne hcl, rowLookup_projectRow,
      if_pos hc, Option.getD_some, rowLookup_astypeLang_ne hcl]

theorem withLangCode_of_mem {df : DF} (h : "lang_code" ∈ df.cols) : withLangCode df = df := by
  unfold withLangCode
  rw [if_pos h]

theorem mem_cols_withLangCode (df : DF) : "lang_code" ∈ (withLangCode df).cols := by
  unfold withLangCode
  by_cases h : "lang_code" ∈ df.cols
  · rw [if_pos h]
    exact h
  · rw [if_neg h]
    exact List.mem_cons_self _ _

/-- C8: the normalizer is idempotent — renormalizing its own output with
the same required-feature list returns that output unchanged. -/
theorem normalize_idempotent (df : DF) (needed : List String) :
    normalize_lang2vec_syntax_df (normalize_lang2vec_syntax_df df needed) needed
      = normalize_lang2vec_syntax_df df needed := by
  simp only [normalize_lang2vec_syntax_df]
  have hW : ∀ R : List Row,
      withLangCode { cols := "lang_code" ::
          needed.filter (fun c => decide (c ∈ (withLangCode df).cols)), rows := R }
        = { cols := "lang_code" ::
            needed.filter (fun c => decide (c ∈ (withLangCode df).cols)), rows := R } :=
    fun R => withLangCode_of_mem (List.mem_cons_self _ _)
  simp only [hW]
  have hfeq : needed.filter (fun c => decide (c ∈
        ("lang_code" :: needed.filter (fun c => decide (c ∈ (withLangCode df).cols)))))
      = needed.filter (fun c => decide (c ∈ (withLangCode df).cols)) := by
    apply List.filter_congr
    intro c hc
    rw [decide_eq_decide]
    constructor
    · intro h
      rcases List.mem_cons.mp h with h | h
      · subst h
        exact mem_cols_withLangCode df
      · exact of_decide_eq_true (List.mem_filter.mp h).2
    · intro h
      exact List.mem_cons.mpr (Or.inr (List.mem_filter.mpr ⟨hc, decide_eq_true h⟩))
  simp only [DF.mk.injEq]
  refine ⟨by rw [hfeq], ?_⟩
  rw [hfeq, List.map_map, List.map_map, List.map_map, List.map_map]
  apply List.map_congr_left
  intro r _
  exact project_ast_project _ (List.mem_cons_self _ _) r

end Wals
